import Mathlib

/-!
Verification development for the `dashboard_app_from_excel` repository.

The repository is a Flask dashboard that reads tables from a local Excel
workbook.  The relevant Python modules are shallowly embedded below:

* `services/google_sheets.py` — the workbook accessor (`should_reload`,
  `refresh_workbook_if_needed`, `ALIAS_MAP`, `normalize_sheet_name`,
  `sheet_to_df`) with its module-level mutable state made explicit as a
  `GsState` record threaded through the functions;
* `app.py` — the numeric-cleanup helpers (`parse_number`), the
  org-chart reshaping in the `org_structure` route, and the
  `financial_review` / `value_map` route handlers.

Python dictionaries are modelled as association lists with
insert-or-replace semantics (`pyInsert`), which preserves both the
uniqueness of keys and the insertion order that Python dictionaries
guarantee.  Python `str.lower` / `str.strip` are modelled by `pyLower`
(character-wise `Char.toLower`) and `String.trim`.  Machine floats are
modelled by exact rationals; every numeric value appearing in the claims
is exactly representable, so no rounding is lost.  Code that can raise
an exception is modelled in an error monad (`Except String`), paired
with the post-state so that partial mutations before a raise are kept.
-/

/-! ## Python dictionaries as association lists -/

/-- Lookup in an association list (first match, as in a Python dict whose
keys are unique). -/
def pyLookup {α : Type} : List (String × α) → String → Option α
  | [], _ => none
  | (k, v) :: rest, key => if key = k then some v else pyLookup rest key

/-- Insert-or-replace, keeping the position of an existing key — the
semantics of `d[k] = v` on a Python dict. -/
def pyInsert {α : Type} : List (String × α) → String → α → List (String × α)
  | [], key, v => [(key, v)]
  | (k, w) :: rest, key, v =>
      if key = k then (k, v) :: rest else (k, w) :: pyInsert rest key v

/-! ## Python string helpers -/

/-- Model of Python `str.lower` (character-wise; the repository only
lower-cases ASCII data). -/
def pyLower (s : String) : String := ⟨s.data.map Char.toLower⟩

/-- Model of Python `str.strip`: drop whitespace from both ends. -/
def pyStrip (s : String) : String :=
  ⟨((s.data.dropWhile Char.isWhitespace).reverse.dropWhile Char.isWhitespace).reverse⟩

/-! ## Numeric cleanup (`app.py`, `parse_number`, lines 139–148)

```python
def parse_number(x):
    if pd.isna(x) or x == "":
        return None
    s = str(x)
    s = s.replace(",", "").replace(" ", "")
    s = re.sub(r"[^\d\.\-]", "", s)   # keep digits, dot, minus
    try:
        return float(s)
    except:
        return None
```

`str.replace(old, "")` deletes every occurrence of `old`, i.e. filters
those characters out; `re.sub(r"[^\d\.\-]", "", s)` keeps exactly the
digits, dots and minus signs.  `float` applied to a string over the
alphabet `0-9 . -` succeeds exactly on an optional leading minus
followed by digits containing at most one dot and at least one digit;
`pyFloatOfChars` reproduces that behaviour with an exact rational
result. -/

def digitsToNat (l : List Char) : Nat :=
  l.foldl (fun a c => a * 10 + (c.toNat - '0'.toNat)) 0

/-- The characters after stripping the single permitted leading minus. -/
def pyFloatBody (l : List Char) : List Char :=
  if l.head? = some '-' then l.tail else l

/-- Exact value of a valid float body `digits [. digits]`: the integer
part plus the fractional digits over the matching power of ten. -/
def pyFloatVal (body : List Char) : ℚ :=
  mkRat
    (Int.ofNat (digitsToNat (body.takeWhile (fun c => c ≠ '.')) *
        10 ^ ((body.dropWhile (fun c => c ≠ '.')).drop 1).length +
      digitsToNat ((body.dropWhile (fun c => c ≠ '.')).drop 1)))
    (10 ^ ((body.dropWhile (fun c => c ≠ '.')).drop 1).length)

/-- Python `float` on a string made only of digits, `'.'` and `'-'`:
`none` models `ValueError`. -/
def pyFloatOfChars (l : List Char) : Option ℚ :=
  if (pyFloatBody l).all (fun c => c.isDigit || c == '.') &&
      decide ((pyFloatBody l).count '.' ≤ 1) &&
      (pyFloatBody l).any (fun c => c.isDigit) then
    some (if l.head? = some '-' then -(pyFloatVal (pyFloatBody l))
      else pyFloatVal (pyFloatBody l))
  else none

/-- `parse_number` from `app.py`.  `pd.isna` is `False` on every string,
so only the `x == ""` guard is visible at string inputs. -/
def parse_number (x : String) : Option ℚ :=
  if x = "" then none
  else
    let s1 := x.data.filter (fun c => !(c == ',') && !(c == ' '))
    let s2 := s1.filter (fun c => c.isDigit || c == '.' || c == '-')
    pyFloatOfChars s2

/-! ## Tables and workbooks (`services/google_sheets.py`)

A sheet as parsed by pandas is a header row (column labels) plus data
rows; a missing cell is `none` (pandas `NaN`) until `fillna("")`
replaces it by the empty string.  An `XFile` is the on-disk workbook:
its named sheets together with the file's modification time. -/

/-- A parsed sheet before `fillna`: `none` cells model `NaN`. -/
structure RawDf where
  cols : List String
  rows : List (List (Option String))
  deriving DecidableEq, Repr

/-- A table after `fillna("")`; also the shape handed to templates. -/
structure Df where
  cols : List String
  rows : List (List String)
  deriving DecidableEq, Repr

/-- `pd.DataFrame()`. -/
def emptyDf : Df := ⟨[], []⟩

/-- `df.fillna("")`. -/
def fillnaEmpty (t : RawDf) : Df :=
  ⟨t.cols, t.rows.map (fun r => r.map (fun c => c.getD ""))⟩

/-- The workbook file on disk: named sheets plus modification time.
`pd.ExcelFile` exposes `sheet_names` and `parse`. -/
structure XFile where
  sheets : List (String × RawDf)
  mtime : ℚ
  deriving DecidableEq, Repr

def sheetNamesOf (f : XFile) : List String := f.sheets.map Prod.fst

/-- `book.parse(name)`; `none` models the `ValueError` pandas raises for
an unknown sheet name. -/
def parseSheet (f : XFile) (n : String) : Option RawDf := pyLookup f.sheets n

/-! ### `ALIAS_MAP` and `_normalize_sheet_name` (lines 64–87) -/

def ALIAS_MAP : List (String × String) :=
  [("value_map", "Full price value_map"),
   ("value_map_promo", "promo price value_map"),
   ("top_product", "top_product_full_price"),
   ("top_product_promo", "top_product_promo"),
   ("okr", "2026 OKR"),
   ("2025 okr", "2025 OKR"),
   ("profit_n_loss", "P&L"),
   ("profit per x", "Profit per X"),
   ("cost per x", "Cost per X"),
   ("core -new segments", "Core -New segments")]

/-- The dict comprehension
`lowered = {name.lower(): name for name in book.sheet_names}` — built
left to right, so for lower-case collisions the later sheet name wins,
exactly as in Python. -/
def loweredMap (f : XFile) : List (String × String) :=
  (sheetNamesOf f).foldl (fun m n => pyInsert m (pyLower n) n) []

/-- `ALIAS_MAP.get(key.lower(), key)`. -/
def aliasKeyOf (key : String) : String :=
  (pyLookup ALIAS_MAP (pyLower key)).getD key

/-- `_normalize_sheet_name(book, key)`. -/
def normalize_sheet_name (f : XFile) (key : String) : Option String :=
  if key ∈ sheetNamesOf f then some key
  else if aliasKeyOf key ∈ sheetNamesOf f then some (aliasKeyOf key)
  else pyLookup (loweredMap f) (pyLower (aliasKeyOf key))

/-- The resolution procedure exactly as the specification words it:
three ordered steps — exact match, the static alias table (a logical
name whose aliased title is an actual sheet), then a case-insensitive
match (applied to the alias-resolved name, choosing the first sheet
whose lower-cased title matches) — first success wins, otherwise no
sheet resolves. -/
def specResolveSheet (f : XFile) (key : String) : Option String :=
  let exactStep : Option String :=
    if key ∈ sheetNamesOf f then some key else none
  let aliasStep : Option String :=
    match pyLookup ALIAS_MAP (pyLower key) with
    | some title => if title ∈ sheetNamesOf f then some title else none
    | none => none
  let ciStep : Option String :=
    (sheetNamesOf f).find? (fun n => pyLower n == pyLower (aliasKeyOf key))
  (exactStep.orElse (fun _ => aliasStep)).orElse (fun _ => ciStep)

/-! ## The module-level cache state and `sheet_to_df`

`google_sheets.py` keeps three module globals plus the one-slot
`lru_cache` of `_load_workbook`:

```python
_excel_cache: dict[str, pd.DataFrame] = {}
_excel_timestamp: float = 0.0
_excel_mtime: float | None = None
```

Each operation takes the current file system content
(`fileOnDisk : Option XFile`, `none` = the workbook file is missing),
the current clock value `now`, and the state; it returns the
`Except`-value of the call paired with the post-state, so that
mutations performed before an exception are preserved. -/

instance {ε α : Type} [DecidableEq ε] [DecidableEq α] : DecidableEq (Except ε α)
  | .error a, .error b =>
      if h : a = b then .isTrue (by rw [h]) else .isFalse (by intro hh; cases hh; exact h rfl)
  | .error _, .ok _ => .isFalse (by intro h; cases h)
  | .ok _, .error _ => .isFalse (by intro h; cases h)
  | .ok a, .ok b =>
      if h : a = b then .isTrue (by rw [h]) else .isFalse (by intro hh; cases hh; exact h rfl)

structure GsState where
  excelCache : List (String × Df)
  excelTimestamp : ℚ
  excelMtime : Option ℚ
  /-- The one-slot `lru_cache` of `_load_workbook`; `none` = cleared. -/
  loadedBook : Option XFile
  deriving DecidableEq, Repr

/-- The state at module import. -/
def initGsState : GsState := ⟨[], 0, none, none⟩

/-- `_should_reload()` (lines 28–48).  Raises `FileNotFoundError` when
the workbook file is missing; otherwise reports whether a reload is due
and records the new mtime / TTL timestamp. -/
def should_reload (ttl : Int) (fileOnDisk : Option XFile) (now : ℚ) (st : GsState) :
    Except String Bool × GsState :=
  match fileOnDisk with
  | none => (.error "FileNotFoundError", st)
  | some f =>
      if st.excelMtime ≠ some f.mtime then
        (.ok true, { st with excelMtime := some f.mtime })
      else if ttl ≤ 0 then
        (.ok false, st)
      else if now - st.excelTimestamp > (ttl : ℚ) then
        (.ok true, { st with excelTimestamp := now })
      else
        (.ok false, st)

/-- `_refresh_workbook_if_needed()` (lines 56–61).  The returned flag
instruments whether the body ran, i.e. whether the cache was cleared and
the workbook (re)loaded.  Note the Python short-circuit: when the cache
is empty `_should_reload()` is *not* called, so neither `_excel_mtime`
nor `_excel_timestamp` is updated by the initial load.  When the body
runs and the file is missing, `_load_workbook()` raises after the cache
and the lru slot were already cleared. -/
def refresh_workbook_if_needed (ttl : Int) (fileOnDisk : Option XFile) (now : ℚ)
    (st : GsState) : Except String Bool × GsState :=
  if st.excelCache.isEmpty then
    match fileOnDisk with
    | none => (.error "FileNotFoundError", { st with excelCache := [], loadedBook := none })
    | some f => (.ok true, { st with excelCache := [], loadedBook := some f })
  else
    match should_reload ttl fileOnDisk now st with
    | (.error e, st') => (.error e, st')
    | (.ok true, st') =>
        match fileOnDisk with
        | none => (.error "FileNotFoundError",
            { st' with excelCache := [], loadedBook := none })
        | some f => (.ok true, { st' with excelCache := [], loadedBook := some f })
    | (.ok false, st') => (.ok false, st')

/-- `sheet_to_df(sheet_name_or_index, worksheet_index)` (lines 90–108).
The `Bool` in the result instruments whether this call (re)loaded the
workbook.  The returned `Df` is `.copy()`-ed in Python; values are
immutable here, and the object-identity consequences of `.copy()` are
modelled separately by the heap model below. -/
def sheet_to_df (ttl : Int) (fileOnDisk : Option XFile) (now : ℚ) (st : GsState)
    (sheetNameOrIndex : Option String) (worksheetIndex : Nat) :
    Except String (Bool × Df) × GsState :=
  match refresh_workbook_if_needed ttl fileOnDisk now st with
  | (.error e, st1) => (.error e, st1)
  | (.ok reloaded, st1) =>
      match st1.loadedBook with
      | none => (.error "FileNotFoundError", st1)
      | some book =>
          let sheetName : Option String :=
            match sheetNameOrIndex with
            | some s =>
                -- `if sheet_name_or_index:` — the empty string is falsy
                if s ≠ "" then normalize_sheet_name book s
                else (sheetNamesOf book)[worksheetIndex]?
            | none => (sheetNamesOf book)[worksheetIndex]?
          match sheetName with
          | none => (.ok (reloaded, emptyDf), st1)
          | some n =>
              -- `if not sheet_name:` — also catches a falsy (empty) name
              if n = "" then (.ok (reloaded, emptyDf), st1)
              else
                match pyLookup st1.excelCache n with
                | some df => (.ok (reloaded, df), st1)
                | none =>
                    match parseSheet book n with
                    | none => (.error "ValueError", st1)
                    | some raw =>
                        let df := fillnaEmpty raw
                        (.ok (reloaded, df),
                          { st1 with excelCache := pyInsert st1.excelCache n df })

/-! ## Org-chart reshaping (`app.py`, `org_structure`, lines 413–516)

A row of the `org_chart` sheet, already stringified: the route applies
`str(row.get(...))` to every consulted field, so fields are plain
strings here (a pandas `NaN` would arrive as the string `"nan"`). -/

structure OrgRow where
  name : String
  level : String
  department : String
  role : String
  status : String
  photoUrl : String
  reportsTo : String
  deriving DecidableEq, Repr

/-- The per-employee node built in the first pass (the `children` lists
appended in the third pass are kept separately as `childrenOf`). -/
structure Emp where
  name : String
  originalName : String
  level : String
  department : String
  role : String
  status : String
  photoUrl : String
  reportsToRaw : String
  /-- Set by the second pass (`emp["reports_to"]`). -/
  reportsTo : String
  deriving DecidableEq, Repr

/-- `f"Vacant_{k}"`. -/
def mkVacantName (k : Nat) : String := "Vacant_" ++ toString k

/-- `not original_name or original_name.lower() == "(vacant)"`. -/
def isVacantOriginal (s : String) : Prop := s = "" ∨ pyLower s = "(vacant)"

instance (s : String) : Decidable (isVacantOriginal s) := by
  unfold isVacantOriginal
  infer_instance

structure Pass1State where
  employees : List (String × Emp)
  vacantMap : List (String × String)
  /-- Instrumentation: the synthesized placeholder identities, in
  encounter order. -/
  gens : List String
  deriving DecidableEq, Repr

def mkEmp (name original : String) (row : OrgRow) : Emp :=
  { name := name
    originalName := original
    level := pyStrip row.level
    department := row.department
    role := row.role
    status := row.status
    photoUrl := row.photoUrl
    reportsToRaw := pyStrip row.reportsTo
    reportsTo := "" }

/-- One iteration of the first pass (lines 434–455). -/
def pass1Step (st : Pass1State) (row : OrgRow) : Pass1State :=
  let original := pyStrip row.name
  if isVacantOriginal original then
    let g := mkVacantName (st.vacantMap.length + 1)
    { employees := pyInsert st.employees g (mkEmp g original row)
      vacantMap := pyInsert st.vacantMap original g
      gens := st.gens ++ [g] }
  else
    { st with employees := pyInsert st.employees original (mkEmp original original row) }

def pass1 (rows : List OrgRow) : Pass1State :=
  rows.foldl pass1Step ⟨[], [], []⟩

/-- The second pass (lines 457–469): normalize `Reports_To`. -/
def normalizeReportsTo (vacantMap : List (String × String))
    (employees : List (String × Emp)) (raw : String) : String :=
  if raw = "" ∨ raw = "0" then ""
  else
    match pyLookup vacantMap raw with
    | some g => g
    | none => if (pyLookup employees raw).isSome then raw else ""

def pass2 (st : Pass1State) : List (String × Emp) :=
  st.employees.map (fun p =>
    (p.1, { p.2 with reportsTo := normalizeReportsTo st.vacantMap st.employees p.2.reportsToRaw }))

/-- The root test of the third pass (line 475):
`if not parent or parent not in employees or parent == name`. -/
def isRootEntry (employees : List (String × Emp)) (p : String × Emp) : Prop :=
  p.2.reportsTo = "" ∨ pyLookup employees p.2.reportsTo = none ∨ p.2.reportsTo = p.1

instance (employees : List (String × Emp)) (p : String × Emp) :
    Decidable (isRootEntry employees p) := by
  unfold isRootEntry
  infer_instance

/-- The third pass (lines 472–478), restricted to the `root_nodes` list;
the `children` adjacency is recorded by name in `childrenOf` below. -/
def rootNodes (employees : List (String × Emp)) : List Emp :=
  (employees.filter (fun p => isRootEntry employees p)).map Prod.snd

/-- The parent→children adjacency appended by the third pass, by name. -/
def childrenOf (employees : List (String × Emp)) (parent : String) : List String :=
  (employees.filter (fun p =>
    ¬ isRootEntry employees p ∧ p.2.reportsTo = parent)).map Prod.fst

/-- The whole reshaping pipeline of the `org_structure` route. -/
structure OrgModel where
  employees : List (String × Emp)
  vacantMap : List (String × String)
  gens : List String
  roots : List Emp
  deriving DecidableEq, Repr

def org_structure (rows : List OrgRow) : OrgModel :=
  { employees := pass2 (pass1 rows)
    vacantMap := (pass1 rows).vacantMap
    gens := (pass1 rows).gens
    roots := rootNodes (pass2 (pass1 rows)) }

/-- The first-pass invariant: every employee node is stored under its own
(non-vacant-looking) name, keys are unique, and every `vacant_map` key is
a blank/`"(Vacant)"` original name. -/
def Pass1Inv (st : Pass1State) : Prop :=
  (∀ p ∈ st.employees, p.2.name = p.1 ∧ ¬ isVacantOriginal p.1) ∧
  (st.employees.map Prod.fst).Nodup ∧
  (∀ p ∈ st.vacantMap, isVacantOriginal p.1)

/-- The blank/vacant original names of the input rows, in encounter
order (the keys successively written into `vacant_map`). -/
def vacantRaws (rows : List OrgRow) : List String :=
  rows.filterMap (fun r =>
    if isVacantOriginal (pyStrip r.name) then some (pyStrip r.name) else none)

/-! ## Route handlers (`app.py`)

A rendered record (`to_dict(orient="records")` row): a Python dict from
column label to cell text, so duplicate column labels keep the last
value. -/

def Rec : Type := List (String × String)

instance : DecidableEq Rec := by
  unfold Rec
  infer_instance

def recordOfRow (cols : List String) (row : List String) : Rec :=
  (cols.zip row).foldl (fun m p => pyInsert m p.1 p.2) []

/-! ### `financial_review` (lines 110–127)

```python
@app.route("/financial_review")
def financial_review():
    try:
        df = gs.sheet_to_df("Financial Review 25")
    except Exception as e:
        print("Error loading sheet:", e)
        df = pd.DataFrame()
    df.columns = [c.strip() for c in df.columns]
    sections = {}
    if "Section" in df.columns:
        for section, group in df.groupby("Section"):
            sections[section] = group.to_dict(orient="records")
    return render_template("financial_review.html", sections=sections)
```

`df.groupby` sorts the group keys ascending; a duplicated `Section`
label would make `groupby` raise (modelled as an error), which cannot
happen on the empty fallback table. -/

def financial_review (ttl : Int) (fileOnDisk : Option XFile) (now : ℚ) (st : GsState) :
    Except String (List (String × List Rec)) × GsState :=
  let fetched :=
    match sheet_to_df ttl fileOnDisk now st (some "Financial Review 25") 0 with
    | (.ok (_, d), s) => (d, s)
    | (.error _, s) => (emptyDf, s)
  let df : Df := ⟨fetched.1.cols.map pyStrip, fetched.1.rows⟩
  let st1 := fetched.2
  if "Section" ∈ df.cols then
    if df.cols.count "Section" = 1 then
      let idx := df.cols.indexOf "Section"
      let vals := df.rows.map (fun r => r.getD idx "")
      let keys := (vals.eraseDups).mergeSort (fun a b => a ≤ b)
      (.ok (keys.map (fun k =>
        (k, ((df.rows.zip vals).filter (fun p => p.2 == k)).map
          (fun p => recordOfRow df.cols p.1)))), st1)
    else (.error "Grouper for Section not 1-dimensional", st1)
  else (.ok [], st1)

/-! ### `value_map` (lines 662–737)

The fetch `df = gs.sheet_to_df("Full price value_map")` is **not**
wrapped in `try`/`except`: any exception of the accessor propagates out
of the handler.  The rest of the body cleans headers, renames columns,
adds missing display columns and filters by the normalized
`Content_Category` — which raises `KeyError` when that column does not
exist (in particular on an empty table). -/

def cleanHeaderVM (s : String) : String :=
  (pyStrip (((s.replace " " " ").replace "\t" " ").replace "  " " ")).replace " " "_"

def renameVM (c : String) : String :=
  if c = "Point" then "Key_Identifier"
  else if c = "Key_Insight" then "Value/Headline"
  else if c = "Highlight" then "Details/Rationale"
  else if c = "Current_Status" then "Details/Rationale"
  else if c = "Category" then "Content_Category"
  else c

/-- `for col in [...]: if col not in df.columns: df[col] = ""`. -/
def addMissingCols (df : Df) (wanted : List String) : Df :=
  wanted.foldl (fun d c =>
    if c ∈ d.cols then d else ⟨d.cols ++ [c], d.rows.map (fun r => r ++ [""])⟩) df

/-- `df[label]`: `KeyError` when absent; with a duplicated label pandas
returns a sub-frame and the subsequent `Series` operations raise. -/
def getSeries (df : Df) (label : String) : Except String (List String) :=
  if df.cols.count label = 1 then
    .ok (df.rows.map (fun r => r.getD (df.cols.indexOf label) ""))
  else if df.cols.count label = 0 then .error "KeyError"
  else .error "AttributeError"

/-- `\w` of Python `re` on the ASCII data of this app. -/
def wordChar (c : Char) : Bool := c.isAlphanum || c == '_'

/-- The maximal runs of word characters of a string. -/
def wordRunsAux : List Char → List Char → List (List Char)
  | [], cur => if cur.isEmpty then [] else [cur.reverse]
  | c :: cs, cur =>
      if wordChar c then wordRunsAux cs (c :: cur)
      else if cur.isEmpty then wordRunsAux cs []
      else cur.reverse :: wordRunsAux cs []

/-- `re.search(r"\bjust\b", s)`: the word `just` delimited by word
boundaries, i.e. `just` occurs as a maximal word-character run. -/
def regexWordJust (s : String) : Bool :=
  (wordRunsAux s.data []).contains "just".data

def leadMatch : List Char → List Char → Bool
  | [], _ => true
  | _ :: _, [] => false
  | a :: as, b :: bs => a == b && leadMatch as bs

def hasSubChars (p : List Char) : List Char → Bool
  | [] => p.isEmpty
  | c :: cs => leadMatch p (c :: cs) || hasSubChars p cs

/-- Substring containment, the semantics of an unanchored `re` pattern
without metacharacters and of pandas `.str.contains` on it. -/
def hasSub (p s : String) : Bool := hasSubChars p.data s.data

/-- The JTBD mask of lines 720–722. -/
def jtbdPred (c : String) : Bool :=
  (regexWordJust c &&
    (hasSub "done" c || hasSub "to be done" c || hasSub "tbd" c || hasSub "jtbd" c)) ||
  c == "just" || c == "just to be done" || hasSub "jtbd" c

structure VMRender where
  pains : List Rec
  relievers : List Rec
  gains : List Rec
  creators : List Rec
  activities : List Rec
  products : List Rec
  services : List Rec
  demo : List Rec
  justtobedone : List Rec
  deriving DecidableEq

def value_map (ttl : Int) (fileOnDisk : Option XFile) (now : ℚ) (st : GsState) :
    Except String VMRender × GsState :=
  match sheet_to_df ttl fileOnDisk now st (some "Full price value_map") 0 with
  | (.error e, st1) => (.error e, st1)
  | (.ok (_, df0), st1) =>
      let df1 : Df := ⟨df0.cols.map cleanHeaderVM, df0.rows⟩
      let df2 : Df := ⟨df1.cols.map renameVM, df1.rows⟩
      let df := addMissingCols df2 ["Key_Identifier", "Value/Headline", "Details/Rationale"]
      match getSeries df "Content_Category" with
      | .error e => (.error e, st1)
      | .ok catRaw =>
          let cat := catRaw.map (fun v => pyLower (pyStrip v))
          let sel := fun (pred : String → Bool) =>
            ((df.rows.zip cat).filter (fun p => pred p.2)).map
              (fun p => recordOfRow df.cols p.1)
          (.ok
            { pains := sel (fun c => c == "pain")
              relievers := sel (fun c => c == "pain reliever")
              gains := sel (fun c => c == "gain")
              creators := sel (fun c => c == "gain creator")
              activities := sel (fun c => c == "activity")
              products := sel (fun c => c == "top-performing full-price brands")
              services := sel (fun c =>
                c == "delivery" || c == "return" || c == "customer service" ||
                c == "delivery tracking" || c == "service")
              demo := sel (fun c =>
                c == "core customer demo" || c == "core customer geo" ||
                c == "core customer demo + geo")
              justtobedone := sel jtbdPred }, st1)

/-! ## Object-identity model of the cache-and-copy step
(`sheet_to_df`, lines 103–108)

```python
    if sheet_name not in _excel_cache:
        _excel_cache[sheet_name] = book.parse(sheet_name).fillna("")
    return _excel_cache[sheet_name].copy()
```

To reason about mutation of the returned DataFrame we refine these
three lines with explicit object identity: a heap of tables addressed
by references, the cache mapping a sheet name to the reference of its
cached object, and `.copy()` allocating a fresh object with equal
content.  `heapWrite` models the caller mutating a DataFrame object in
place. -/

structure CacheHeapState where
  heap : List Df
  cacheRefs : List (String × Nat)
  deriving DecidableEq, Repr

def heapRead (s : CacheHeapState) (r : Nat) : Df := s.heap.getD r emptyDf

def heapAlloc (s : CacheHeapState) (t : Df) : Nat × CacheHeapState :=
  (s.heap.length, { s with heap := s.heap ++ [t] })

/-- In-place mutation of the object at reference `r`. -/
def heapWrite (s : CacheHeapState) (r : Nat) (t : Df) : CacheHeapState :=
  { s with heap := s.heap.set r t }

/-- Every cached reference points into the heap. -/
def WFHeap (s : CacheHeapState) : Prop :=
  ∀ p ∈ s.cacheRefs, p.2 < s.heap.length

/-- Lines 103–108 of `sheet_to_df`, for an already-resolved sheet name
`n` of the loaded workbook `book`: fill the cache on a miss, then
return a reference to a fresh `.copy()` of the cached object. -/
def cacheFetchCopy (book : XFile) (n : String) (s : CacheHeapState) :
    Except String (Nat × CacheHeapState) :=
  match pyLookup s.cacheRefs n with
  | some r =>
      let a := heapAlloc s (heapRead s r)
      .ok (a.1, a.2)
  | none =>
      match parseSheet book n with
      | none => .error "ValueError"
      | some raw =>
          let a0 := heapAlloc s (fillnaEmpty raw)
          let s1 := { a0.2 with cacheRefs := pyInsert a0.2.cacheRefs n a0.1 }
          let a1 := heapAlloc s1 (heapRead s1 a0.1)
          .ok (a1.1, a1.2)

/-! # Lemmas

General lemmas about the embedded dictionary, string and heap
operations, followed by invariants of the embedded functions. -/

theorem pyLookup_pyInsert {α : Type} (m : List (String × α)) (k key : String) (v : α) :
    pyLookup (pyInsert m k v) key = if key = k then some v else pyLookup m key := by
  induction m with
  | nil => simp [pyInsert, pyLookup]
  | cons hd tl ih =>
      obtain ⟨k', w⟩ := hd
      by_cases hk : k = k'
      · subst hk
        by_cases hkey : key = k <;> simp [pyInsert, pyLookup, hkey]
      · by_cases hkey : key = k'
        · subst hkey
          simp [pyInsert, pyLookup, hk, Ne.symm hk]
        · simp [pyInsert, pyLookup, hk, hkey, ih]

theorem pyInsert_length_of_mem {α : Type} (m : List (String × α)) (k : String) (v : α)
    (h : (pyLookup m k).isSome) : (pyInsert m k v).length = m.length := by
  induction m with
  | nil => simp [pyLookup] at h
  | cons hd tl ih =>
      obtain ⟨k', w⟩ := hd
      by_cases hk : k = k'
      · simp [pyInsert, hk]
      · simp only [pyLookup, if_neg hk] at h
        simp [pyInsert, hk, ih h]

theorem pyInsert_length_of_not_mem {α : Type} (m : List (String × α)) (k : String) (v : α)
    (h : pyLookup m k = none) : (pyInsert m k v).length = m.length + 1 := by
  induction m with
  | nil => simp [pyInsert]
  | cons hd tl ih =>
      obtain ⟨k', w⟩ := hd
      by_cases hk : k = k'
      · simp [pyLookup, hk] at h
      · simp only [pyLookup, if_neg hk] at h
        simp [pyInsert, hk, ih h]

theorem pyLookup_eq_none_iff {α : Type} (m : List (String × α)) (k : String) :
    pyLookup m k = none ↔ ∀ p ∈ m, k ≠ p.1 := by
  induction m with
  | nil => simp [pyLookup]
  | cons hd tl ih =>
      obtain ⟨k', w⟩ := hd
      by_cases hk : k = k' <;> simp [pyLookup, hk, ih]

theorem pyLookup_mem {α : Type} (m : List (String × α)) (k : String) (v : α)
    (h : pyLookup m k = some v) : (k, v) ∈ m := by
  induction m with
  | nil => simp [pyLookup] at h
  | cons hd tl ih =>
      obtain ⟨k', w⟩ := hd
      by_cases hk : k = k'
      · subst hk
        simp [pyLookup] at h
        simp [h]
      · simp only [pyLookup, if_neg hk] at h
        exact List.mem_cons_of_mem _ (ih h)

/-- Membership of an entry implies a successful lookup when the keys of
the list are pairwise distinct. -/
theorem pyLookup_of_mem_nodup {α : Type} (m : List (String × α)) (k : String) (v : α)
    (hnd : (m.map Prod.fst).Nodup) (h : (k, v) ∈ m) : pyLookup m k = some v := by
  induction m with
  | nil => simp at h
  | cons hd tl ih =>
      obtain ⟨k', w⟩ := hd
      simp only [List.map_cons, List.nodup_cons] at hnd
      rcases List.mem_cons.mp h with h1 | h1
      · obtain ⟨hk, hv⟩ := Prod.mk.injEq .. ▸ h1
        simp_all [pyLookup]
      · have hkne : k ≠ k' := by
          intro hkk
          exact hnd.1 (hkk ▸ (List.mem_map.mpr ⟨(k, v), h1, rfl⟩))
        simp [pyLookup, hkne, ih hnd.2 h1]

/-- The key list of an insert-or-replace: unchanged when the key was
present, the key appended when it was absent. -/
theorem pyInsert_map_fst {α : Type} (m : List (String × α)) (k : String) (v : α) :
    (pyInsert m k v).map Prod.fst =
      if (pyLookup m k).isSome then m.map Prod.fst else m.map Prod.fst ++ [k] := by
  induction m with
  | nil => simp [pyInsert, pyLookup]
  | cons hd tl ih =>
      obtain ⟨k', w⟩ := hd
      by_cases hk : k = k'
      · simp [pyInsert, pyLookup, hk]
      · by_cases hs : (pyLookup tl k).isSome <;>
          simp [pyInsert, pyLookup, hk, ih, hs]

theorem pyInsert_keys_nodup {α : Type} (m : List (String × α)) (k : String) (v : α)
    (hnd : (m.map Prod.fst).Nodup) : ((pyInsert m k v).map Prod.fst).Nodup := by
  rw [pyInsert_map_fst]
  by_cases hs : (pyLookup m k).isSome
  · simpa [hs]
  · have hnone : pyLookup m k = none := Option.not_isSome_iff_eq_none.mp hs
    have hk : k ∉ m.map Prod.fst := by
      intro hmem
      rcases List.mem_map.mp hmem with ⟨p, hp, hfst⟩
      exact (pyLookup_eq_none_iff m k).mp hnone p hp hfst.symm
    simp [hs, List.nodup_append, hnd, hk]

/-- Every entry of `pyInsert m k v` is either the new pair or an old entry. -/
theorem mem_pyInsert {α : Type} (m : List (String × α)) (k : String) (v : α) (p : String × α)
    (h : p ∈ pyInsert m k v) : p = (k, v) ∨ p ∈ m := by
  induction m with
  | nil => simp [pyInsert] at h; simp [h]
  | cons hd tl ih =>
      obtain ⟨k', w⟩ := hd
      by_cases hk : k = k'
      · subst hk
        simp only [pyInsert, if_pos rfl] at h
        rcases List.mem_cons.mp h with h1 | h1
        · exact Or.inl h1
        · exact Or.inr (List.mem_cons_of_mem _ h1)
      · simp only [pyInsert, if_neg hk] at h
        rcases List.mem_cons.mp h with h1 | h1
        · exact Or.inr (h1 ▸ List.mem_cons_self _ _)
        · rcases ih h1 with h2 | h2
          · exact Or.inl h2
          · exact Or.inr (List.mem_cons_of_mem _ h2)


theorem pyFloatOfChars_eq_none_of_no_digit (l : List Char)
    (h : ∀ c ∈ l, ¬ c.isDigit) : pyFloatOfChars l = none := by
  have hbody : ∀ c ∈ pyFloatBody l, ¬ c.isDigit := by
    intro c hc
    apply h
    unfold pyFloatBody at hc
    split at hc
    · exact List.mem_of_mem_tail hc
    · exact hc
  have hany : ((pyFloatBody l).any (fun c => c.isDigit)) = false := by
    simp only [List.any_eq_false]
    intro c hc
    simpa using hbody c hc
  unfold pyFloatOfChars
  simp [hany]


/-! ### Lemmas about the lowered-names dictionary -/

theorem pyLookup_foldl_pyInsert_eq_none {β : Type} (g : β → String) (h : β → β)
    (names : List β) (m : List (String × β)) (k : String) :
    pyLookup (names.foldl (fun acc n => pyInsert acc (g n) (h n)) m) k = none ↔
      pyLookup m k = none ∧ ∀ n ∈ names, g n ≠ k := by
  induction names generalizing m with
  | nil => simp
  | cons n ns ih =>
      simp only [List.foldl_cons, ih, List.mem_cons]
      rw [pyLookup_pyInsert]
      constructor
      · rintro ⟨h1, h2⟩
        by_cases hk : k = g n
        · simp [hk] at h1
        · refine ⟨by simpa [hk] using h1, ?_⟩
          rintro x (rfl | hx)
          · exact fun hgk => hk hgk.symm
          · exact h2 x hx
      · rintro ⟨h1, h2⟩
        refine ⟨?_, fun x hx => h2 x (Or.inr hx)⟩
        have : k ≠ g n := fun hk => h2 n (Or.inl rfl) hk.symm
        simpa [this] using h1

/-- With pairwise-distinct lowered names, the Python dict lookup agrees
with a first-match scan of the sheet-name list. -/
theorem pyLookup_foldl_pyInsert_eq_find {β : Type} [DecidableEq β] (g : β → String)
    (names : List β) (m : List (String × β)) (k : String)
    (hnd : (names.map g).Nodup)
    (hdis : ∀ n ∈ names, pyLookup m (g n) = none) :
    pyLookup (names.foldl (fun acc n => pyInsert acc (g n) n) m) k =
      (pyLookup m k).orElse (fun _ => names.find? (fun n => g n == k)) := by
  induction names generalizing m with
  | nil =>
      simp only [List.foldl_nil, List.find?_nil]
      cases h : pyLookup m k <;> simp [h, Option.orElse]
  | cons n ns ih =>
      simp only [List.map_cons, List.nodup_cons] at hnd
      simp only [List.foldl_cons]
      rw [ih _ hnd.2]
      · rw [pyLookup_pyInsert]
        by_cases hk : k = g n
        · subst hk
          have hmn : pyLookup m (g n) = none := hdis n (List.mem_cons_self _ _)
          simp [hmn, Option.orElse, List.find?]
        · have hfind : ((n :: ns).find? (fun x => g x == k)) =
              ns.find? (fun x => g x == k) := by
            simp only [List.find?]
            have : (g n == k) = false := by
              simp [beq_iff_eq]
              exact fun hgn => hk hgn.symm
            simp [this]
          simp [hk, hfind]
      · intro x hx
        rw [pyLookup_pyInsert]
        have hne : g x ≠ g n := by
          intro he
          exact hnd.1 (he ▸ List.mem_map.mpr ⟨x, hx, rfl⟩)
        simp [hne, hdis x (List.mem_cons_of_mem _ hx)]

/-- Under distinct lowered sheet names, `_normalize_sheet_name` computes
exactly the specification's three-step resolution. -/
theorem normalize_eq_specResolve (f : XFile) (key : String)
    (hnd : ((sheetNamesOf f).map pyLower).Nodup) :
    normalize_sheet_name f key = specResolveSheet f key := by
  unfold normalize_sheet_name specResolveSheet
  by_cases hexact : key ∈ sheetNamesOf f
  · simp [hexact, Option.orElse]
  · simp only [if_neg hexact]
    have hlow : pyLookup (loweredMap f) (pyLower (aliasKeyOf key)) =
        (sheetNamesOf f).find? (fun n => pyLower n == pyLower (aliasKeyOf key)) := by
      have := pyLookup_foldl_pyInsert_eq_find pyLower (sheetNamesOf f) []
        (pyLower (aliasKeyOf key)) hnd (by intro n _; simp [pyLookup])
      simpa [loweredMap, pyLookup, Option.orElse] using this
    cases halias : pyLookup ALIAS_MAP (pyLower key) with
    | none =>
        have hak : aliasKeyOf key = key := by simp [aliasKeyOf, halias]
        rw [hak] at hlow
        simp [hak, hexact, hlow, Option.orElse]
    | some title =>
        have hak : aliasKeyOf key = title := by simp [aliasKeyOf, halias]
        rw [hak] at hlow
        by_cases htitle : title ∈ sheetNamesOf f
        · simp [hak, htitle, Option.orElse]
        · simp [hak, htitle, hlow, Option.orElse]


/-- If no step of the specification's resolution succeeds, the code
resolves nothing either (no distinctness assumption needed). -/
theorem normalize_eq_none_of_specResolve_none (f : XFile) (key : String)
    (h : specResolveSheet f key = none) : normalize_sheet_name f key = none := by
  unfold specResolveSheet at h
  unfold normalize_sheet_name
  by_cases hexact : key ∈ sheetNamesOf f
  · simp [hexact, Option.orElse] at h
  · simp only [hexact, if_false] at h ⊢
    have hci : ∀ t : String, (∀ x ∈ sheetNamesOf f, ¬ pyLower x = pyLower t) →
        pyLookup (loweredMap f) (pyLower t) = none := by
      intro t hall
      unfold loweredMap
      rw [pyLookup_foldl_pyInsert_eq_none]
      exact ⟨by simp [pyLookup], fun n hn => hall n hn⟩
    cases halias : pyLookup ALIAS_MAP (pyLower key) with
    | none =>
        have hak : aliasKeyOf key = key := by simp [aliasKeyOf, halias]
        simp [halias, hak, hexact, Option.orElse] at h
        rw [hak]
        simp [hexact, hci key h]
    | some title =>
        have hak : aliasKeyOf key = title := by simp [aliasKeyOf, halias]
        by_cases htitle : title ∈ sheetNamesOf f
        · simp [halias, hak, htitle, Option.orElse] at h
        · simp [halias, hak, htitle, Option.orElse] at h
          rw [hak]
          simp [htitle, hci title h]

/-- With a non-positive TTL, `_should_reload` never consults the clock. -/
theorem should_reload_now_indep (ttl : Int) (httl : ttl ≤ 0) (fd : Option XFile)
    (st : GsState) (n1 n2 : ℚ) :
    should_reload ttl fd n1 st = should_reload ttl fd n2 st := by
  unfold should_reload
  cases fd with
  | none => rfl
  | some f =>
      by_cases hm : st.excelMtime ≠ some f.mtime <;> simp [hm, httl]

/-- With the workbook file missing, `sheet_to_df` always raises
`FileNotFoundError` (from `_should_reload` or from `_load_workbook`). -/
theorem sheet_to_df_missing_file (ttl : Int) (now : ℚ) (st : GsState)
    (nameOpt : Option String) (wi : Nat) :
    ∃ st', sheet_to_df ttl none now st nameOpt wi = (.error "FileNotFoundError", st') := by
  unfold sheet_to_df refresh_workbook_if_needed should_reload
  by_cases hc : st.excelCache.isEmpty
  · exact ⟨⟨[], st.excelTimestamp, st.excelMtime, none⟩, by simp [hc]⟩
  · exact ⟨st, by simp [hc]⟩

/-- The generated placeholder identities of the first pass, relative to
an arbitrary starting state: when the upcoming blank/vacant raw names
are pairwise distinct and all fresh for the accumulated `vacant_map`,
the synthesized numbers continue the map's size consecutively. -/
theorem pass1_foldl_gens (rows : List OrgRow) (st : Pass1State)
    (hnd : (vacantRaws rows).Nodup)
    (hfresh : ∀ k ∈ vacantRaws rows, pyLookup st.vacantMap k = none) :
    (rows.foldl pass1Step st).gens =
      st.gens ++ (List.range (vacantRaws rows).length).map
        (fun i => mkVacantName (st.vacantMap.length + 1 + i)) ∧
    (rows.foldl pass1Step st).vacantMap.length =
      st.vacantMap.length + (vacantRaws rows).length := by
  induction rows generalizing st with
  | nil => simp [vacantRaws]
  | cons r rs ih =>
      by_cases hv : isVacantOriginal (pyStrip r.name)
      · have hraws : vacantRaws (r :: rs) = pyStrip r.name :: vacantRaws rs := by
          simp [vacantRaws, hv]
        rw [hraws] at hnd hfresh
        obtain ⟨hnotin, hnd'⟩ := List.nodup_cons.mp hnd
        have hkfresh : pyLookup st.vacantMap (pyStrip r.name) = none :=
          hfresh _ (List.mem_cons_self _ _)
        have hlen : (pass1Step st r).vacantMap.length = st.vacantMap.length + 1 := by
          unfold pass1Step
          simp only [hv, if_pos]
          exact pyInsert_length_of_not_mem _ _ _ hkfresh
        have hgens : (pass1Step st r).gens =
            st.gens ++ [mkVacantName (st.vacantMap.length + 1)] := by
          unfold pass1Step
          simp [hv]
        have hfresh' : ∀ k ∈ vacantRaws rs, pyLookup (pass1Step st r).vacantMap k = none := by
          intro k hk
          unfold pass1Step
          simp only [hv, if_pos]
          rw [pyLookup_pyInsert]
          have hne : k ≠ pyStrip r.name := fun he => hnotin (he ▸ hk)
          simp [hne, hfresh k (List.mem_cons_of_mem _ hk)]
        have hih := ih (pass1Step st r) hnd' hfresh'
        rw [List.foldl_cons]
        constructor
        · rw [hih.1, hgens, hlen, hraws]
          simp only [List.length_cons, List.range_succ_eq_map, List.map_cons, List.map_map]
          have hfun : ((fun i => mkVacantName (st.vacantMap.length + 1 + i)) ∘ Nat.succ) =
              (fun i => mkVacantName (st.vacantMap.length + 1 + 1 + i)) := by
            funext i
            simp only [Function.comp_apply]
            congr 1
            omega
          rw [hfun, Nat.add_zero, List.append_assoc, List.singleton_append]
        · rw [hih.2, hlen, hraws, List.length_cons]
          omega
      · have hraws : vacantRaws (r :: rs) = vacantRaws rs := by
          simp [vacantRaws, hv]
        rw [hraws] at hnd hfresh
        have hmap : (pass1Step st r).vacantMap = st.vacantMap := by
          unfold pass1Step
          simp [hv]
        have hgens : (pass1Step st r).gens = st.gens := by
          unfold pass1Step
          simp [hv]
        have hih := ih (pass1Step st r) hnd (by rw [hmap]; exact hfresh)
        rw [List.foldl_cons, hraws]
        rw [hih.1, hih.2, hgens, hmap]
        exact ⟨rfl, rfl⟩
theorem mkVacantName_data (k : Nat) :
    (mkVacantName k).data = 'V' :: ("acant_".data ++ (toString k).data) := by
  show ("Vacant_" ++ toString k).data = _
  rw [String.data_append]
  rfl

theorem mkVacantName_not_vacant (k : Nat) : ¬ isVacantOriginal (mkVacantName k) := by
  intro h
  cases h with
  | inl h =>
      have hd := congrArg String.data h
      rw [mkVacantName_data] at hd
      simp at hd
  | inr h =>
      have hd := congrArg String.data h
      simp only [pyLower] at hd
      rw [mkVacantName_data] at hd
      simp at hd

theorem pass1Step_inv (st : Pass1State) (r : OrgRow) (h : Pass1Inv st) :
    Pass1Inv (pass1Step st r) := by
  unfold pass1Step
  by_cases hv : isVacantOriginal (pyStrip r.name)
  · simp only [hv, if_pos]
    refine ⟨?_, pyInsert_keys_nodup _ _ _ h.2.1, ?_⟩
    · intro p hp
      rcases mem_pyInsert _ _ _ _ hp with rfl | hp'
      · exact ⟨rfl, mkVacantName_not_vacant _⟩
      · exact h.1 p hp'
    · intro p hp
      rcases mem_pyInsert _ _ _ _ hp with rfl | hp'
      · exact hv
      · exact h.2.2 p hp'
  · simp only [hv, if_neg, if_false]
    refine ⟨?_, pyInsert_keys_nodup _ _ _ h.2.1, h.2.2⟩
    intro p hp
    rcases mem_pyInsert _ _ _ _ hp with rfl | hp'
    · exact ⟨rfl, hv⟩
    · exact h.1 p hp'

theorem pass1_inv (rows : List OrgRow) : Pass1Inv (pass1 rows) := by
  have haux : ∀ st, Pass1Inv st → Pass1Inv (rows.foldl pass1Step st) := by
    induction rows with
    | nil => intro st h; exact h
    | cons r rs ih => intro st h; exact ih _ (pass1Step_inv st r h)
  exact haux ⟨[], [], []⟩ ⟨by simp, by simp, by simp⟩

theorem pyLookup_keymap_none {α β : Type} (m : List (String × α)) (f : String × α → β)
    (key : String) :
    pyLookup (m.map (fun p => (p.1, f p))) key = none ↔ pyLookup m key = none := by
  induction m with
  | nil => simp [pyLookup]
  | cons hd tl ih =>
      by_cases hk : key = hd.1 <;> simp [pyLookup, hk, ih]

/-- C9: in org-chart reshaping, every employee row whose `Reports_To`
is empty, does not resolve to any known row (neither a `vacant_map` key
nor an employee name), or equals the row's own identity, becomes a root
node of the resulting hierarchy. -/
theorem c9_unparented_rows_become_roots (rows : List OrgRow) (k : String) (e : Emp)
    (hmem : (k, e) ∈ (org_structure rows).employees)
    (hcond : e.reportsToRaw = "" ∨
      (pyLookup (org_structure rows).vacantMap e.reportsToRaw = none ∧
       pyLookup (org_structure rows).employees e.reportsToRaw = none) ∨
      e.reportsToRaw = e.name) :
    e ∈ (org_structure rows).roots := by
  have hinv := pass1_inv rows
  simp only [org_structure] at hmem hcond ⊢
  obtain ⟨p0, hp0, hpe⟩ := List.mem_map.mp hmem
  obtain ⟨hk, he⟩ := Prod.mk.injEq .. ▸ hpe
  subst hk
  have hname : p0.2.name = p0.1 := (hinv.1 p0 hp0).1
  have hnotvac : ¬ isVacantOriginal p0.1 := (hinv.1 p0 hp0).2
  have hraw : e.reportsToRaw = p0.2.reportsToRaw := by rw [← he]
  have hename : e.name = p0.2.name := by rw [← he]
  have hrep : e.reportsTo =
      normalizeReportsTo (pass1 rows).vacantMap (pass1 rows).employees p0.2.reportsToRaw := by
    rw [← he]
  -- root membership via the filter characterization
  have hroot : isRootEntry (pass2 (pass1 rows)) (p0.1, e) := by
    unfold isRootEntry
    show e.reportsTo = "" ∨ pyLookup (pass2 (pass1 rows)) e.reportsTo = none ∨
      e.reportsTo = p0.1
    rcases hcond with hc | ⟨hcv, hce⟩ | hc
    · -- empty Reports_To
      left
      rw [hraw] at hc
      rw [hrep]
      unfold normalizeReportsTo
      simp [hc]
    · -- unresolvable Reports_To
      rw [hrep]
      rw [hraw] at hcv hce
      by_cases hz : p0.2.reportsToRaw = "" ∨ p0.2.reportsToRaw = "0"
      · left
        unfold normalizeReportsTo
        simp [hz]
      · left
        unfold normalizeReportsTo
        rw [if_neg hz, hcv]
        have he1 : pyLookup (pass1 rows).employees p0.2.reportsToRaw = none :=
          (pyLookup_keymap_none _ _ _).mp hce
        simp [he1]
    · -- self-referential Reports_To
      rw [hename, hname] at hc
      rw [hraw] at hc
      rw [hrep]
      by_cases hz : p0.2.reportsToRaw = "" ∨ p0.2.reportsToRaw = "0"
      · left
        unfold normalizeReportsTo
        simp [hz]
      · right; right
        unfold normalizeReportsTo
        rw [if_neg hz]
        have hcv : pyLookup (pass1 rows).vacantMap p0.2.reportsToRaw = none := by
          cases hvl : pyLookup (pass1 rows).vacantMap p0.2.reportsToRaw with
          | none => rfl
          | some g =>
              exact absurd (hinv.2.2 _ (pyLookup_mem _ _ _ hvl)) (by simpa [hc] using hnotvac)
        rw [hcv]
        have he1 : pyLookup (pass1 rows).employees p0.2.reportsToRaw = some p0.2 := by
          rw [hc]
          exact pyLookup_of_mem_nodup _ _ _ hinv.2.1 hp0
        simp only [he1, Option.isSome_some, if_true]
        exact hc
  exact List.mem_map.mpr ⟨(p0.1, e), List.mem_filter.mpr ⟨hmem, by simpa using hroot⟩, rfl⟩

theorem dfGetD_append_self (l : List Df) (t : Df) : (l ++ [t]).getD l.length emptyDf = t := by
  simp [List.getD]

theorem dfGetD_append_lt (l : List Df) (t : Df) (i : Nat) (h : i < l.length) :
    (l ++ [t]).getD i emptyDf = l.getD i emptyDf := by
  simp [List.getD, List.getElem?_append, h]

theorem dfGetD_set_ne (l : List Df) (i j : Nat) (t : Df) (h : j ≠ i) :
    (l.set i t).getD j emptyDf = l.getD j emptyDf := by
  simp [List.getD, List.getElem?_set, Ne.symm h]

theorem cacheFetchCopy_hit (book : XFile) (n : String) (s : CacheHeapState) (r : Nat)
    (hit : pyLookup s.cacheRefs n = some r) :
    cacheFetchCopy book n s =
      .ok (s.heap.length, ⟨s.heap ++ [heapRead s r], s.cacheRefs⟩) := by
  unfold cacheFetchCopy
  rw [hit]
  rfl

/-- C10: `sheet_to_df` returns a fresh `.copy()` of the cached table:
the returned reference differs from the cached one, initially holds
equal content, and after any in-place mutation of the returned object a
subsequent call still returns the originally parsed content. -/
theorem c10_returned_copy_isolated (book : XFile) (n : String) (s : CacheHeapState) (r' : Nat)
    (s' : CacheHeapState) (hwf : WFHeap s)
    (h : cacheFetchCopy book n s = .ok (r', s')) :
    ∃ r0, pyLookup s'.cacheRefs n = some r0 ∧ r' ≠ r0 ∧
      heapRead s' r' = heapRead s' r0 ∧
      ∀ d : Df,
        heapRead (heapWrite s' r' d) r0 = heapRead s' r0 ∧
        ∃ r2 s2, cacheFetchCopy book n (heapWrite s' r' d) = .ok (r2, s2) ∧
          heapRead s2 r2 = heapRead s' r0 := by
  unfold cacheFetchCopy at h
  cases hit : pyLookup s.cacheRefs n with
  | some r =>
      rw [hit] at h
      simp only [heapAlloc, Except.ok.injEq, Prod.mk.injEq] at h
      obtain ⟨hr', hs'⟩ := h
      subst hs'
      subst hr'
      have hrlt : r < s.heap.length := hwf _ (pyLookup_mem _ _ _ hit)
      refine ⟨r, hit, by omega, ?_, ?_⟩
      · simp only [heapRead]
        rw [dfGetD_append_self s.heap (s.heap.getD r emptyDf),
          dfGetD_append_lt s.heap (s.heap.getD r emptyDf) r hrlt]
      · intro d
        constructor
        · simp only [heapRead, heapWrite]
          rw [dfGetD_set_ne _ _ _ _ (by omega)]
        · refine ⟨_, _, cacheFetchCopy_hit book n
            (heapWrite ⟨s.heap ++ [heapRead s r], s.cacheRefs⟩ s.heap.length d) r hit, ?_⟩
          simp only [heapRead, heapWrite]
          rw [dfGetD_append_self ((s.heap ++ [s.heap.getD r emptyDf]).set s.heap.length d)
            (((s.heap ++ [s.heap.getD r emptyDf]).set s.heap.length d).getD r emptyDf)]
          rw [dfGetD_set_ne (s.heap ++ [s.heap.getD r emptyDf]) s.heap.length r d (by omega),
            dfGetD_append_lt s.heap (s.heap.getD r emptyDf) r hrlt]
  | none =>
      rw [hit] at h
      cases hparse : parseSheet book n with
      | none => rw [hparse] at h; cases h
      | some raw =>
          rw [hparse] at h
          simp only [heapAlloc, Except.ok.injEq, Prod.mk.injEq] at h
          obtain ⟨hr', hs'⟩ := h
          have hq : heapRead (⟨s.heap ++ [fillnaEmpty raw],
              pyInsert s.cacheRefs n s.heap.length⟩ : CacheHeapState) s.heap.length =
              fillnaEmpty raw := by
            simp only [heapRead]
            exact dfGetD_append_self s.heap (fillnaEmpty raw)
          rw [hq] at hs'
          subst hs'
          subst hr'
          have hlt : s.heap.length < (s.heap ++ [fillnaEmpty raw]).length := by simp
          refine ⟨s.heap.length, ?_, ?_, ?_, ?_⟩
          · rw [pyLookup_pyInsert]
            simp
          · simp only [List.length_append, List.length_cons, List.length_nil]
            omega
          · simp only [heapRead]
            rw [dfGetD_append_self (s.heap ++ [fillnaEmpty raw]) (fillnaEmpty raw),
              dfGetD_append_lt (s.heap ++ [fillnaEmpty raw]) (fillnaEmpty raw) s.heap.length hlt,
              dfGetD_append_self s.heap (fillnaEmpty raw)]
          · intro d
            constructor
            · simp only [heapRead, heapWrite]
              rw [dfGetD_set_ne _ _ _ _ (by simp)]
            · refine ⟨_, _, cacheFetchCopy_hit book n _ s.heap.length ?_, ?_⟩
              · show pyLookup (pyInsert s.cacheRefs n s.heap.length) n = some s.heap.length
                rw [pyLookup_pyInsert]
                simp
              · simp only [heapRead, heapWrite]
                rw [dfGetD_append_self
                  (((s.heap ++ [fillnaEmpty raw]) ++ [fillnaEmpty raw]).set
                    (s.heap ++ [fillnaEmpty raw]).length d)
                  ((((s.heap ++ [fillnaEmpty raw]) ++ [fillnaEmpty raw]).set
                    (s.heap ++ [fillnaEmpty raw]).length d).getD s.heap.length emptyDf)]
                rw [dfGetD_set_ne _ _ _ _ (by simp)]

/-! # Claims -/

/-- C1: for every sheet name that does not resolve against the loaded
workbook — not an exact match, not via the static alias table, not a
case-insensitive match (`specResolveSheet _ _ = none`) — and given that
the backing workbook file exists, `sheet_to_df` returns an empty table
and never raises.  (The empty string is excluded: it is falsy in
Python, so `sheet_to_df("")` selects the default worksheet index
instead of performing name resolution.) -/
theorem c1_unresolved_sheet_returns_empty (ttl : Int) (f : XFile) (now : ℚ)
    (st : GsState) (key : String)
    (hreach : st.excelCache ≠ [] → st.loadedBook.isSome)
    (hkey : key ≠ "")
    (hf : specResolveSheet f key = none)
    (hbook : ∀ b, st.loadedBook = some b → specResolveSheet b key = none) :
    ∃ reloaded st', sheet_to_df ttl (some f) now st (some key) 0 =
      (.ok (reloaded, emptyDf), st') := by
  unfold sheet_to_df refresh_workbook_if_needed
  by_cases hc : st.excelCache.isEmpty
  · have hn := normalize_eq_none_of_specResolve_none f key hf
    exact ⟨true, { st with excelCache := [], loadedBook := some f }, by simp [hc, hkey, hn]⟩
  · simp only [hc, if_false]
    unfold should_reload
    by_cases hm : st.excelMtime ≠ some f.mtime
    · have hn := normalize_eq_none_of_specResolve_none f key hf
      exact ⟨true, { st with excelMtime := some f.mtime, excelCache := [], loadedBook := some f },
        by simp [hm, hkey, hn]⟩
    · have hsome : st.loadedBook.isSome := hreach (by simpa [List.isEmpty_iff] using hc)
      obtain ⟨b, hb⟩ := Option.isSome_iff_exists.mp hsome
      have hn := normalize_eq_none_of_specResolve_none b key (hbook b hb)
      by_cases httl : ttl ≤ 0
      · exact ⟨false, st, by simp [hm, httl, hb, hkey, hn]⟩
      · by_cases htime : now - st.excelTimestamp > (ttl : ℚ)
        · have hn2 := normalize_eq_none_of_specResolve_none f key hf
          exact ⟨true, { st with excelTimestamp := now, excelCache := [], loadedBook := some f },
            by simp [hm, httl, htime, hkey, hn2]⟩
        · exact ⟨false, st, by simp [hm, httl, htime, hb, hkey, hn]⟩

theorem c1_unresolved_sheet_returns_empty_witness :
    ∃ reloaded st', sheet_to_df 30 (some ⟨[("Sheet1", ⟨[], []⟩)], 5⟩) 100 initGsState
      (some "zzz") 0 = (.ok (reloaded, emptyDf), st') :=
  c1_unresolved_sheet_returns_empty 30 ⟨[("Sheet1", ⟨[], []⟩)], 5⟩ 100 initGsState "zzz"
    (by intro h; simp [initGsState] at h)
    (by decide)
    (by decide)
    (by intro b hb; simp [initGsState] at hb)

/-- C4: the numeric-cleanup function used by the dashboard handlers,
`parse_number`, maps `"15,750"` to `15750.0`, maps the LaTeX-markup
input `"$\mathbf{5,250}$"` to `5250.0`, and maps the empty string or
digit-free non-numeric text to a missing value (`none`) rather than
raising — the embedding returns `Option`, so totality of the function
is exactly "never raises". -/
theorem c4_numeric_cleanup :
    parse_number "15,750" = some 15750 ∧
    parse_number "$\\mathbf\x7b5,250\x7d$" = some 5250 ∧
    parse_number "" = none ∧
    ∀ s : String, (∀ c ∈ s.data, ¬ c.isDigit) → parse_number s = none := by
  refine ⟨by decide, by decide, by decide, ?_⟩
  intro s hs
  unfold parse_number
  by_cases h0 : s = ""
  · simp [h0]
  · simp only [if_neg h0]
    apply pyFloatOfChars_eq_none_of_no_digit
    intro c hc
    have hc1 : c ∈ s.data := (List.mem_filter.mp (List.mem_filter.mp hc).1).1
    exact hs c hc1

theorem c4_numeric_cleanup_witness :
    parse_number "N/A" = none ∧ parse_number "15,750" = some 15750 :=
  ⟨c4_numeric_cleanup.2.2.2 "N/A" (by decide), c4_numeric_cleanup.1⟩

/-- C7: requested-name resolution tries, in this order: exact match
against the workbook's sheet names; then the static alias table; then a
case-insensitive match (of the alias-resolved name); the first step
that succeeds determines the resolved sheet and if none succeeds no
sheet is resolved — i.e. `_normalize_sheet_name` computes the staged
procedure `specResolveSheet`.  Stated for workbooks whose sheet names
have no lower-case collisions, where "the" case-insensitive match is
unambiguous. -/
theorem c7_resolution_order (f : XFile) (key : String)
    (hnd : ((sheetNamesOf f).map pyLower).Nodup) :
    normalize_sheet_name f key = specResolveSheet f key :=
  normalize_eq_specResolve f key hnd

theorem c7_resolution_order_witness :
    (normalize_sheet_name ⟨[("exe_summary", ⟨[], []⟩), ("2026 OKR", ⟨[], []⟩),
        ("Sheet1", ⟨[], []⟩)], 5⟩ "exe_summary" = some "exe_summary") ∧
    (normalize_sheet_name ⟨[("exe_summary", ⟨[], []⟩), ("2026 OKR", ⟨[], []⟩),
        ("Sheet1", ⟨[], []⟩)], 5⟩ "okr" = some "2026 OKR") ∧
    (normalize_sheet_name ⟨[("exe_summary", ⟨[], []⟩), ("2026 OKR", ⟨[], []⟩),
        ("Sheet1", ⟨[], []⟩)], 5⟩ "SHEET1" = some "Sheet1") ∧
    (normalize_sheet_name ⟨[("exe_summary", ⟨[], []⟩), ("2026 OKR", ⟨[], []⟩),
        ("Sheet1", ⟨[], []⟩)], 5⟩ "zzz" = none) := by
  refine ⟨?_, ?_, ?_, ?_⟩ <;>
    rw [c7_resolution_order _ _ (by decide)] <;> decide

/-- C5 (counterexample): the claim "within the TTL window with no file
change, a second access to an already-loaded sheet is served from cache
with no reload" fails on the code.  Concretely: TTL = 30, the workbook
file (mtime 5) never changes; the first access at time 100 loads sheet
`"a"`; the second access at time 101 — one second later — nevertheless
reloads the workbook (the instrumented flag is `true`), because the
initial load never recorded `_excel_mtime` (the short-circuit in
`_refresh_workbook_if_needed` skips `_should_reload`).  The third
access would reload again, because `_excel_timestamp` is still `0`. -/
theorem c5_reload_within_ttl_counterexample :
    sheet_to_df 30 (some ⟨[("a", ⟨["x"], [[some "1"]]⟩)], 5⟩) 100 initGsState (some "a") 0 =
      (.ok (true, ⟨["x"], [["1"]]⟩),
        ⟨[("a", ⟨["x"], [["1"]]⟩)], 0, none, some ⟨[("a", ⟨["x"], [[some "1"]]⟩)], 5⟩⟩) ∧
    sheet_to_df 30 (some ⟨[("a", ⟨["x"], [[some "1"]]⟩)], 5⟩) 101
        ⟨[("a", ⟨["x"], [["1"]]⟩)], 0, none, some ⟨[("a", ⟨["x"], [[some "1"]]⟩)], 5⟩⟩
        (some "a") 0 =
      (.ok (true, ⟨["x"], [["1"]]⟩),
        ⟨[("a", ⟨["x"], [["1"]]⟩)], 0, some 5, some ⟨[("a", ⟨["x"], [[some "1"]]⟩)], 5⟩⟩) :=
  ⟨by decide, by decide⟩

/-- C5 (amended): a cached access is reload-free only relative to the
*recorded* markers, which the code updates lazily: when the recorded
`_excel_mtime` equals the file's modification time and at most TTL
seconds have passed since the recorded `_excel_timestamp` (updated only
by TTL-triggered reloads, not by every load), an access to a cached
sheet returns exactly the cached table, performs no reload, and leaves
the state unchanged. -/
theorem c5_cached_access_amended (ttl : Int) (f b : XFile) (now : ℚ) (st : GsState)
    (key n : String) (df : Df)
    (httl : 0 < ttl)
    (hmt : st.excelMtime = some f.mtime)
    (hts : now - st.excelTimestamp ≤ (ttl : ℚ))
    (hcache : st.excelCache ≠ [])
    (hb : st.loadedBook = some b)
    (hkey : key ≠ "")
    (hres : normalize_sheet_name b key = some n)
    (hne : n ≠ "")
    (hlook : pyLookup st.excelCache n = some df) :
    sheet_to_df ttl (some f) now st (some key) 0 = (.ok (false, df), st) := by
  unfold sheet_to_df refresh_workbook_if_needed should_reload
  have hc : st.excelCache.isEmpty = false := by simpa [List.isEmpty_iff] using hcache
  have hmt' : ¬ st.excelMtime ≠ some f.mtime := by simp [hmt]
  have httl' : ¬ ttl ≤ 0 := by omega
  have hts' : ¬ now - st.excelTimestamp > (ttl : ℚ) := not_lt.mpr hts
  simp [hc, hmt', httl', hts', hb, hkey, hres, hne, hlook]

theorem c5_cached_access_amended_witness :
    sheet_to_df 30 (some ⟨[("a", ⟨["x"], [[some "1"]]⟩)], 5⟩) 110
      ⟨[("a", ⟨["x"], [["1"]]⟩)], 100, some 5, some ⟨[("a", ⟨["x"], [[some "1"]]⟩)], 5⟩⟩
      (some "a") 0 =
      (.ok (false, ⟨["x"], [["1"]]⟩),
        ⟨[("a", ⟨["x"], [["1"]]⟩)], 100, some 5, some ⟨[("a", ⟨["x"], [[some "1"]]⟩)], 5⟩⟩) :=
  c5_cached_access_amended 30 ⟨[("a", ⟨["x"], [[some "1"]]⟩)], 5⟩
    ⟨[("a", ⟨["x"], [[some "1"]]⟩)], 5⟩ 110
    ⟨[("a", ⟨["x"], [["1"]]⟩)], 100, some 5, some ⟨[("a", ⟨["x"], [[some "1"]]⟩)], 5⟩⟩
    "a" "a" ⟨["x"], [["1"]]⟩
    (by decide) (by decide) (by norm_num) (by decide) (by decide) (by decide)
    (by decide) (by decide) (by decide)

/-- C6: if the backing file's modification time differs from the
recorded one, an access clears the entire cache wholesale — the
post-state cache holds exactly the one freshly parsed sheet — and
returns the table parsed from the new file contents. -/
theorem c6_mtime_change_invalidates (ttl : Int) (f : XFile) (now : ℚ) (st : GsState)
    (key n : String) (raw : RawDf)
    (hmt : st.excelMtime ≠ some f.mtime)
    (hkey : key ≠ "")
    (hres : normalize_sheet_name f key = some n)
    (hne : n ≠ "")
    (hparse : parseSheet f n = some raw) :
    ∃ st', sheet_to_df ttl (some f) now st (some key) 0 =
        (.ok (true, fillnaEmpty raw), st') ∧
      st'.excelCache = [(n, fillnaEmpty raw)] ∧ st'.loadedBook = some f := by
  unfold sheet_to_df refresh_workbook_if_needed should_reload
  by_cases hc : st.excelCache.isEmpty
  · refine ⟨⟨pyInsert [] n (fillnaEmpty raw), st.excelTimestamp, st.excelMtime, some f⟩,
      ?_, ?_, rfl⟩
    · simp [hc, hkey, hres, hne, hparse, pyLookup]
    · simp [pyInsert]
  · refine ⟨⟨pyInsert [] n (fillnaEmpty raw), st.excelTimestamp, some f.mtime, some f⟩,
      ?_, ?_, rfl⟩
    · simp [hc, hmt, hkey, hres, hne, hparse, pyLookup]
    · simp [pyInsert]

theorem c6_mtime_change_invalidates_witness :
    ∃ st', sheet_to_df 30 (some ⟨[("a", ⟨["x"], [[some "2"]]⟩)], 7⟩) 101
        ⟨[("a", ⟨["x"], [["1"]]⟩), ("b", ⟨[], []⟩)], 0, some 5,
          some ⟨[("a", ⟨["x"], [[some "1"]]⟩)], 5⟩⟩ (some "a") 0 =
        (.ok (true, fillnaEmpty ⟨["x"], [[some "2"]]⟩), st') ∧
      st'.excelCache = [("a", fillnaEmpty ⟨["x"], [[some "2"]]⟩)] ∧
      st'.loadedBook = some ⟨[("a", ⟨["x"], [[some "2"]]⟩)], 7⟩ :=
  c6_mtime_change_invalidates 30 ⟨[("a", ⟨["x"], [[some "2"]]⟩)], 7⟩ 101
    ⟨[("a", ⟨["x"], [["1"]]⟩), ("b", ⟨[], []⟩)], 0, some 5,
      some ⟨[("a", ⟨["x"], [[some "1"]]⟩)], 5⟩⟩ "a" "a" ⟨["x"], [[some "2"]]⟩
    (by decide) (by decide) (by decide) (by decide) (by decide)

/-- C8: a non-positive cache TTL disables time-based expiry: the result
of `sheet_to_df` does not depend on the clock at all, and with the
recorded modification time matching the file's, a refresh never clears
or reloads anything, whatever the elapsed time. -/
theorem c8_nonpositive_ttl_no_expiry (ttl : Int) (httl : ttl ≤ 0) :
    (∀ (fd : Option XFile) (st : GsState) (nameOpt : Option String) (wi : Nat) (n1 n2 : ℚ),
      sheet_to_df ttl fd n1 st nameOpt wi = sheet_to_df ttl fd n2 st nameOpt wi) ∧
    (∀ (f : XFile) (st : GsState) (now : ℚ), st.excelMtime = some f.mtime →
      st.excelCache ≠ [] →
      refresh_workbook_if_needed ttl (some f) now st = (.ok false, st)) := by
  constructor
  · intro fd st nameOpt wi n1 n2
    unfold sheet_to_df refresh_workbook_if_needed
    rw [should_reload_now_indep ttl httl fd st n1 n2]
  · intro f st now hmt hcache
    unfold refresh_workbook_if_needed should_reload
    have hc : st.excelCache.isEmpty = false := by simpa [List.isEmpty_iff] using hcache
    have hmt' : ¬ st.excelMtime ≠ some f.mtime := by simp [hmt]
    simp [hc, hmt', httl]

theorem c8_nonpositive_ttl_no_expiry_witness :
    sheet_to_df 0 (some ⟨[("a", ⟨["x"], [[some "1"]]⟩)], 5⟩) 100
        ⟨[("a", ⟨["x"], [["1"]]⟩)], 0, some 5, some ⟨[("a", ⟨["x"], [[some "1"]]⟩)], 5⟩⟩
        (some "a") 0 =
      sheet_to_df 0 (some ⟨[("a", ⟨["x"], [[some "1"]]⟩)], 5⟩) 1000000
        ⟨[("a", ⟨["x"], [["1"]]⟩)], 0, some 5, some ⟨[("a", ⟨["x"], [[some "1"]]⟩)], 5⟩⟩
        (some "a") 0 ∧
    refresh_workbook_if_needed 0 (some ⟨[("a", ⟨["x"], [[some "1"]]⟩)], 5⟩) 1000000
        ⟨[("a", ⟨["x"], [["1"]]⟩)], 0, some 5, some ⟨[("a", ⟨["x"], [[some "1"]]⟩)], 5⟩⟩ =
      (.ok false,
        ⟨[("a", ⟨["x"], [["1"]]⟩)], 0, some 5, some ⟨[("a", ⟨["x"], [[some "1"]]⟩)], 5⟩⟩) :=
  ⟨(c8_nonpositive_ttl_no_expiry 0 (by decide)).1 _ _ _ _ 100 1000000,
   (c8_nonpositive_ttl_no_expiry 0 (by decide)).2 _ _ 1000000 (by decide) (by decide)⟩

/-- C2 (counterexample): the claim "every dashboard route handler
catches a missing/unreadable backing store and renders empty content;
no fatal error ever reaches the user" fails on the code: the
`value_map` route calls `gs.sheet_to_df` with no `try`/`except`, so
with the workbook file missing the handler raises `FileNotFoundError`
out of the request (here: from the fresh module state). -/
theorem c2_value_map_missing_store_counterexample :
    (value_map 30 none 100 initGsState).1 = .error "FileNotFoundError" := by decide

/-- C2 (amended): handlers that wrap the fetch in `try`/`except` — such
as `financial_review` — degrade to an empty render when the backing
store is missing, from any cache state; but `value_map` (and likewise
`value_map_promo`) does not guard its fetch and propagates the
`FileNotFoundError` to the user. -/
theorem c2_handlers_amended (ttl : Int) (now : ℚ) (st : GsState) :
    (financial_review ttl none now st).1 = .ok [] ∧
    (value_map ttl none now st).1 = .error "FileNotFoundError" := by
  obtain ⟨st', hst'⟩ := sheet_to_df_missing_file ttl now st (some "Financial Review 25") 0
  obtain ⟨st2, hst2⟩ := sheet_to_df_missing_file ttl now st (some "Full price value_map") 0
  constructor
  · unfold financial_review
    rw [hst']
    simp [emptyDf]
  · unfold value_map
    rw [hst2]

/-- C3 (counterexample): the claim "N blank/'(Vacant)' rows synthesize
exactly N distinct placeholder identities numbered 1..N in encounter
order" fails on the code: `vacant_map` is keyed by the raw original
name, so three rows all named `"(Vacant)"` synthesize
`Vacant_1, Vacant_2, Vacant_2` — the count `len(vacant_map)` only grows
with *distinct* raw values, and the third identity collides with the
second. -/
theorem c3_duplicate_vacancy_counterexample :
    (org_structure [⟨"(Vacant)", "", "", "", "", "", ""⟩, ⟨"(Vacant)", "", "", "", "", "", ""⟩,
        ⟨"(Vacant)", "", "", "", "", "", ""⟩]).gens = ["Vacant_1", "Vacant_2", "Vacant_2"] ∧
    ¬ (org_structure [⟨"(Vacant)", "", "", "", "", "", ""⟩, ⟨"(Vacant)", "", "", "", "", "", ""⟩,
        ⟨"(Vacant)", "", "", "", "", "", ""⟩]).gens.Nodup :=
  ⟨by decide, by decide⟩

/-- C3 (amended): when the blank/vacant rows' raw (stripped) name
values are pairwise distinct, the first pass synthesizes exactly one
placeholder identity per such row, numbered sequentially `Vacant_1` ..
`Vacant_N` in encounter order; with repeated raw values the sequence
number `len(vacant_map)+1` repeats instead. -/
theorem c3_vacancy_numbering_amended (rows : List OrgRow)
    (hnd : (vacantRaws rows).Nodup) :
    (org_structure rows).gens =
      (List.range (vacantRaws rows).length).map (fun i => mkVacantName (i + 1)) := by
  have h := pass1_foldl_gens rows ⟨[], [], []⟩ hnd (by intro k _; simp [pyLookup])
  have h1 := h.1
  simp only [List.length_nil, List.nil_append] at h1
  unfold org_structure
  simp only [pass1]
  rw [h1]
  apply List.map_congr_left
  intro i _
  congr 1
  omega

theorem c3_vacancy_numbering_amended_witness :
    (org_structure [⟨"", "", "", "", "", "", ""⟩, ⟨"(Vacant)", "", "", "", "", "", ""⟩,
        ⟨"Alice", "", "", "", "", "", ""⟩]).gens =
      (List.range (vacantRaws [⟨"", "", "", "", "", "", ""⟩, ⟨"(Vacant)", "", "", "", "", "", ""⟩,
        ⟨"Alice", "", "", "", "", "", ""⟩]).length).map (fun i => mkVacantName (i + 1)) :=
  c3_vacancy_numbering_amended _ (by decide)

theorem c9_unparented_rows_become_roots_witness :
    ⟨"Alice", "Alice", "", "", "", "", "", "Alice", "Alice"⟩ ∈
      (org_structure [⟨"Alice", "", "", "", "", "", "Alice"⟩,
        ⟨"Bob", "", "", "", "", "", "Alice"⟩]).roots :=
  c9_unparented_rows_become_roots
    [⟨"Alice", "", "", "", "", "", "Alice"⟩, ⟨"Bob", "", "", "", "", "", "Alice"⟩]
    "Alice" ⟨"Alice", "Alice", "", "", "", "", "", "Alice", "Alice"⟩
    (by decide) (Or.inr (Or.inr (by decide)))

theorem c10_returned_copy_isolated_witness :
    ∃ r0, pyLookup (⟨[⟨["x"], [["1"]]⟩, ⟨["x"], [["1"]]⟩], [("a", 0)]⟩ :
        CacheHeapState).cacheRefs "a" = some r0 ∧ (1 : Nat) ≠ r0 ∧
      heapRead ⟨[⟨["x"], [["1"]]⟩, ⟨["x"], [["1"]]⟩], [("a", 0)]⟩ 1 =
        heapRead ⟨[⟨["x"], [["1"]]⟩, ⟨["x"], [["1"]]⟩], [("a", 0)]⟩ r0 ∧
      ∀ d : Df,
        heapRead (heapWrite ⟨[⟨["x"], [["1"]]⟩, ⟨["x"], [["1"]]⟩], [("a", 0)]⟩ 1 d) r0 =
          heapRead ⟨[⟨["x"], [["1"]]⟩, ⟨["x"], [["1"]]⟩], [("a", 0)]⟩ r0 ∧
        ∃ r2 s2, cacheFetchCopy ⟨[("a", ⟨["x"], [[some "1"]]⟩)], 5⟩ "a"
            (heapWrite ⟨[⟨["x"], [["1"]]⟩, ⟨["x"], [["1"]]⟩], [("a", 0)]⟩ 1 d) =
              .ok (r2, s2) ∧
          heapRead s2 r2 = heapRead ⟨[⟨["x"], [["1"]]⟩, ⟨["x"], [["1"]]⟩], [("a", 0)]⟩ r0 :=
  c10_returned_copy_isolated ⟨[("a", ⟨["x"], [[some "1"]]⟩)], 5⟩ "a" ⟨[], []⟩ 1
    ⟨[⟨["x"], [["1"]]⟩, ⟨["x"], [["1"]]⟩], [("a", 0)]⟩
    (by intro p hp; simp at hp) (by decide)
